import Mathlib

/-!
# charlock_holmes: `ext/charlock_holmes/encoding_detector.c`

A shallow embedding of the encoding detector binding: the binary classifier
`detect_binary_content`, the match builders `rb_encdec_buildmatch` and
`rb_encdec_binarymatch`, the two entry points `rb_encdec_detect` and
`rb_encdec_detect_all`, and the `strip_tags` accessors.

libmagic and the ICU charset detector are external libraries.  Their verdict
functions (`magic_buffer`, `ucsdet_detect`, `ucsdet_detectAll`) are taken as
parameters (`Engine`); the configuration the ICU handle stores (`ucsdet_setText`,
`ucsdet_setDeclaredEncoding`, `ucsdet_enableInputFilter`) is an explicit record.
-/

namespace CharlockHolmes

/-! ## Data model -/

/-- Contents of a C string (the bytes before the terminating NUL), or of a byte
buffer given with an explicit length. -/
abbrev CStr := List Char

/-- Ruby values that are not containers. -/
inductive Leaf where
  | Qnil
  | Qtrue
  | Qfalse
  | fixnum (n : Int)
  | symbol (name : String)
  | string (bytes : CStr)
  deriving DecidableEq, Repr

/-- Ruby values the binding receives and returns: a plain value or a Hash
(insertion-ordered key/value entries). -/
inductive VALUE where
  | leaf (v : Leaf)
  | hash (entries : List (Leaf × Leaf))
  deriving DecidableEq, Repr

/-- Ways a call leaves without returning a value: the exceptions raised through
`rb_raise`, `rb_scan_args` and `Check_Type`, and `undefined` for a C call whose
behaviour is undefined (no exception can be promised there). -/
inductive RbError where
  | ArgumentError
  | TypeError
  | StandardError (msg : CStr)
  | undefined
  deriving DecidableEq, Repr

/-- A candidate reported by the charset detector (`UCharsetMatch`), seen through
`ucsdet_getName`, `ucsdet_getLanguage` (a pointer that may be null) and
`ucsdet_getConfidence`. -/
structure UCharsetMatch where
  name : CStr
  language : Option CStr
  confidence : Int
  deriving DecidableEq, Repr

/-- What the ICU handle `UCharsetDetector *csd` stores between calls: the text
and length given to `ucsdet_setText`, the declared encoding given to
`ucsdet_setDeclaredEncoding` (with its length), and the input-filter flag
(a `UBool`). -/
structure UCharsetDetector where
  text : CStr
  textLen : Int
  declaredEncoding : Option (CStr × Int)
  fStripTags : Int
  deriving DecidableEq, Repr

/-- Calls into the signature engine and into the charset detector made by the
entry points, in program order. -/
inductive Call where
  | magic_buffer (buf : CStr)
  | ucsdet_setText (buf : CStr) (len : Int)
  | ucsdet_setDeclaredEncoding (enc : CStr) (len : Int)
  | ucsdet_detect
  | ucsdet_detectAll
  deriving DecidableEq, Repr

/-- The detector object (`charlock_detector_t`): the ICU handle, together with
the record of the external calls made on behalf of this object. -/
structure charlock_detector_t where
  csd : UCharsetDetector
  calls : List Call
  deriving DecidableEq, Repr

/-- The external engines: libmagic's verdict on a buffer (`none` is a null
result), the text `magic_error` returns (`none` is a null pointer), and ICU's
detection over the handle's state. -/
structure Engine where
  magic_buffer : CStr → Option CStr
  magic_error : Option CStr
  ucsdet_detect : UCharsetDetector → Option UCharsetMatch
  ucsdet_detectAll : UCharsetDetector → List UCharsetMatch

/-! ## C library and Ruby runtime helpers -/

/-- C `strstr`: offset of the first occurrence of `needle` in `haystack`,
`none` for a null result. -/
def strstr : CStr → CStr → Option Nat
  | [], needle => if needle.isPrefixOf [] then some 0 else none
  | c :: rest, needle =>
    if needle.isPrefixOf (c :: rest) then some 0
    else (strstr rest needle).map (· + 1)

/-- What a printf format expands to when no argument follows it, as in
`rb_raise(klass, fmt)`: ordinary characters are copied and `%%` gives `%`; any
other use of `%` is a conversion that reads an argument that was not passed, or
an incomplete one, which is undefined behaviour (`none`). -/
def format_no_args : CStr → Option CStr
  | [] => some []
  | c :: rest =>
    if c = '%' then
      match rest with
      | d :: rest' =>
        if d = '%' then (format_no_args rest').map (fun out => '%' :: out) else none
      | [] => none
    else (format_no_args rest).map (fun out => c :: out)

/-- `rb_raise(rb_eStandardError, fmt)` with `fmt` the only argument after the
class: `fmt` is read as a printf format, so a null pointer or a format that
reads an argument is undefined behaviour; otherwise `StandardError` is raised
with the expanded text. -/
def rb_raise_StandardError : Option CStr → RbError
  | none => .undefined
  | some fmt =>
    match format_no_args fmt with
    | some msg => .StandardError msg
    | none => .undefined

/-- Conversion of a `long` length to `int32_t` (two's complement wrap). -/
def toInt32 (n : Int) : Int :=
  let m := n % 4294967296
  if m < 2147483648 then m else m - 4294967296

/-- `rb_hash_aset`: overwrite the entry of an existing key, else append. -/
def rb_hash_aset (h : List (Leaf × Leaf)) (k v : Leaf) : List (Leaf × Leaf) :=
  if h.any (fun e => e.1 = k) then
    h.map (fun e => if e.1 = k then (k, v) else e)
  else h ++ [(k, v)]

/-- Hash lookup (`rb_hash_aref`), `none` when the key is absent. -/
def rb_hash_aref (h : List (Leaf × Leaf)) (k : Leaf) : Option Leaf :=
  (h.find? (fun e => e.1 = k)).map (fun e => e.2)

/-- Lookup in a returned value: only a Hash has keys. -/
def VALUE.fetch : VALUE → String → Option Leaf
  | .hash h, key => rb_hash_aref h (.symbol key)
  | .leaf _, _ => none

/-- `rb_scan_args(argc, argv, "11", &rb_str, &rb_enc_hint)`: one required and
one optional argument; the optional one is `Qnil` when absent. -/
def rb_scan_args_11 : List VALUE → Except RbError (VALUE × VALUE)
  | [a] => .ok (a, .leaf .Qnil)
  | [a, b] => .ok (a, b)
  | _ => .error .ArgumentError

/-- `Check_Type(v, T_STRING)`: the bytes of a String, `none` when the check
raises `TypeError`. -/
def Check_Type_T_STRING : VALUE → Option CStr
  | .leaf (.string bytes) => some bytes
  | _ => none

/-- `NIL_P`. -/
def NIL_P (v : VALUE) : Bool := v = .leaf .Qnil

/-! ## ICU handle operations -/

/-- `ucsdet_setText(csd, ptr, len, &status)`. -/
def ucsdet_setText (d : charlock_detector_t) (buf : CStr) (len : Int) :
    charlock_detector_t :=
  { csd := { d.csd with text := buf, textLen := len },
    calls := d.calls ++ [.ucsdet_setText buf len] }

/-- `ucsdet_setDeclaredEncoding(csd, ptr, len, &status)`. -/
def ucsdet_setDeclaredEncoding (d : charlock_detector_t) (enc : CStr) (len : Int) :
    charlock_detector_t :=
  { csd := { d.csd with declaredEncoding := some (enc, len) },
    calls := d.calls ++ [.ucsdet_setDeclaredEncoding enc len] }

/-- `ucsdet_enableInputFilter(csd, filter)`: stores the flag. -/
def ucsdet_enableInputFilter (d : charlock_detector_t) (filter : Int) :
    charlock_detector_t :=
  { d with csd := { d.csd with fStripTags := filter } }

/-- `ucsdet_isInputFilterEnabled(csd)`. -/
def ucsdet_isInputFilterEnabled (d : charlock_detector_t) : Int :=
  d.csd.fStripTags

/-! ## The binding -/

/-- `rb_encdec_buildmatch` (lines 13-38). -/
def rb_encdec_buildmatch : Option UCharsetMatch → VALUE
  | none => .leaf .Qnil
  | some m =>
    let mname := m.name
    let mlang := m.language
    let mconfidence := m.confidence
    let rb_match : List (Leaf × Leaf) := []
    let rb_match := rb_hash_aset rb_match (.symbol "type") (.symbol "text")
    let rb_match := rb_hash_aset rb_match (.symbol "encoding") (.string mname)
    let rb_match := rb_hash_aset rb_match (.symbol "confidence") (.fixnum mconfidence)
    match mlang with
    | some (c :: cs) =>
      .hash (rb_hash_aset rb_match (.symbol "language") (.string (c :: cs)))
    | _ => .hash rb_match

/-- `rb_encdec_binarymatch` (lines 40-49). -/
def rb_encdec_binarymatch : VALUE :=
  let rb_match : List (Leaf × Leaf) := []
  let rb_match := rb_hash_aset rb_match (.symbol "type") (.symbol "binary")
  let rb_match := rb_hash_aset rb_match (.symbol "confidence") (.fixnum 100)
  .hash rb_match

/-- `detect_binary_content` (lines 51-68): the C `int` result, or the raised
exception, with the detector after the call. -/
def detect_binary_content (E : Engine) (detector : charlock_detector_t) (rb_str : CStr) :
    Except RbError Int × charlock_detector_t :=
  let detector := { detector with calls := detector.calls ++ [.magic_buffer rb_str] }
  match E.magic_buffer rb_str with
  | some binary_result =>
    if (strstr binary_result "library".toList).isSome ||
        (strstr binary_result "bundle".toList).isSome ||
        (strstr binary_result "archive".toList).isSome ||
        (!(strstr binary_result "text".toList).isSome &&
          (strstr binary_result "executable".toList).isSome) ||
        (strstr binary_result "data".toList).isSome then
      (.ok 1, detector)
    else
      (.ok 0, detector)
  | none => (.error (rb_raise_StandardError E.magic_error), detector)

/-- `rb_encdec_detect` (lines 81-108). -/
def rb_encdec_detect (E : Engine) (argv : List VALUE) (self : charlock_detector_t) :
    Except RbError VALUE × charlock_detector_t :=
  match rb_scan_args_11 argv with
  | .error e => (.error e, self)
  | .ok (rb_str, rb_enc_hint) =>
    match Check_Type_T_STRING rb_str with
    | none => (.error .TypeError, self)
    | some str =>
      match detect_binary_content E self str with
      | (.error e, detector) => (.error e, detector)
      | (.ok r, detector) =>
        if r ≠ 0 then (.ok rb_encdec_binarymatch, detector)
        else
          let detector := ucsdet_setText detector str (toInt32 str.length)
          if !NIL_P rb_enc_hint then
            match Check_Type_T_STRING rb_enc_hint with
            | none => (.error .TypeError, detector)
            | some hint =>
              let detector := ucsdet_setDeclaredEncoding detector hint (toInt32 hint.length)
              (.ok (rb_encdec_buildmatch (E.ucsdet_detect detector.csd)),
                { detector with calls := detector.calls ++ [.ucsdet_detect] })
          else
            (.ok (rb_encdec_buildmatch (E.ucsdet_detect detector.csd)),
              { detector with calls := detector.calls ++ [.ucsdet_detect] })

/-- The loop of lines 158-160: push the match built from each candidate. -/
def push_matches (rb_ret : List VALUE) : List UCharsetMatch → List VALUE
  | [] => rb_ret
  | m :: csm => push_matches (rb_ret ++ [rb_encdec_buildmatch (some m)]) csm

/-- `rb_encdec_detect_all` (lines 125-166); the returned Array is a list. -/
def rb_encdec_detect_all (E : Engine) (argv : List VALUE) (self : charlock_detector_t) :
    Except RbError (List VALUE) × charlock_detector_t :=
  match rb_scan_args_11 argv with
  | .error e => (.error e, self)
  | .ok (rb_str, rb_enc_hint) =>
    match Check_Type_T_STRING rb_str with
    | none => (.error .TypeError, self)
    | some str =>
      let rb_ret : List VALUE := []
      match detect_binary_content E self str with
      | (.error e, detector) => (.error e, detector)
      | (.ok r, detector) =>
        let binary_match : VALUE := if r ≠ 0 then rb_encdec_binarymatch else .leaf .Qnil
        let detector := ucsdet_setText detector str (toInt32 str.length)
        let finish (detector : charlock_detector_t) :
            Except RbError (List VALUE) × charlock_detector_t :=
          let csm := E.ucsdet_detectAll detector.csd
          let detector := { detector with calls := detector.calls ++ [.ucsdet_detectAll] }
          let rb_ret := push_matches rb_ret csm
          if !NIL_P binary_match then (.ok (binary_match :: rb_ret), detector)
          else (.ok rb_ret, detector)
        if !NIL_P rb_enc_hint then
          match Check_Type_T_STRING rb_enc_hint with
          | none => (.error .TypeError, detector)
          | some hint =>
            finish (ucsdet_setDeclaredEncoding detector hint (toInt32 hint.length))
        else finish detector

/-- `rb_get_strip_tags` (lines 175-188). -/
def rb_get_strip_tags (self : charlock_detector_t) : VALUE × charlock_detector_t :=
  let val := ucsdet_isInputFilterEnabled self
  let rb_val : VALUE := if val = 1 then .leaf .Qtrue else .leaf .Qfalse
  (rb_val, self)

/-- `rb_set_strip_tags` (lines 198-210). -/
def rb_set_strip_tags (self : charlock_detector_t) (rb_val : VALUE) :
    VALUE × charlock_detector_t :=
  let val : Int := if rb_val = .leaf .Qtrue then 1 else 0
  (rb_val, ucsdet_enableInputFilter self val)

/-- The detector as `rb_encdec__alloc` leaves it: a freshly opened ICU handle
(no text, no declared encoding, filter off) and no calls made. -/
def rb_encdec__alloc : charlock_detector_t :=
  { csd := { text := [], textLen := 0, declaredEncoding := none, fStripTags := 0 },
    calls := [] }

/-! ## Specification-side helpers -/

/-- The state of the ICU handle when an entry point asks it for candidates on
buffer `str`: the text is `str`, and the declared encoding is the hint of this
call when it is a String, else whatever the handle already stored. -/
def csdFor (csd : UCharsetDetector) (str : CStr) (hint : VALUE) : UCharsetDetector :=
  { csd with
    text := str
    textLen := toInt32 str.length
    declaredEncoding :=
      match Check_Type_T_STRING hint with
      | some h => some (h, toInt32 h.length)
      | none => csd.declaredEncoding }

/-- A hint the entry points accept: absent (`Qnil`) or a String. -/
def hintOk (hint : VALUE) : Prop :=
  hint = .leaf .Qnil ∨ ∃ h, hint = .leaf (.string h)

/-- The text match built from a (non-null) candidate. -/
def textMatch (m : UCharsetMatch) : VALUE := rb_encdec_buildmatch (some m)

/-! ## Concrete engines and inputs used to exercise the theorems -/

/-- A candidate without language. -/
def cand_utf8 : UCharsetMatch := { name := "UTF-8".toList, language := none, confidence := 80 }

/-- A candidate with a language. -/
def cand_latin1 : UCharsetMatch :=
  { name := "ISO-8859-1".toList, language := some "en".toList, confidence := 60 }

/-- A small signature database and charset detector.  The signature engine
knows the empty buffer, the Zip, ELF and PE magic bytes and the `#!` line, and
calls everything else ASCII text.  The charset detector reports nothing for an
empty text; otherwise it reports the declared encoding, when the handle stores
one, in front of two fixed candidates. -/
def sampleEngine : Engine where
  magic_buffer := fun buf =>
    if buf = [] then some "empty".toList
    else if "PK\x03\x04".toList.isPrefixOf buf then
      some "Zip archive data, at least v2.0 to extract".toList
    else if "\x7fELF".toList.isPrefixOf buf then
      some "ELF 64-bit LSB executable, x86-64".toList
    else if "MZ".toList.isPrefixOf buf then
      some "PE32 executable (console) Intel 80386, for MS Windows".toList
    else if "#!".toList.isPrefixOf buf then
      some "POSIX shell script text executable".toList
    else some "ASCII text".toList
  magic_error := none
  ucsdet_detect := fun csd =>
    if csd.text = [] then none
    else match csd.declaredEncoding with
      | some (enc, _) => some { name := enc, language := none, confidence := 90 }
      | none => some cand_utf8
  ucsdet_detectAll := fun csd =>
    if csd.text = [] then []
    else match csd.declaredEncoding with
      | some (enc, _) =>
        [{ name := enc, language := none, confidence := 90 }, cand_utf8, cand_latin1]
      | none => [cand_utf8, cand_latin1]

theorem strstr_isSome_iff (haystack needle : CStr) :
    (strstr haystack needle).isSome = true ↔ needle <:+: haystack := by
  induction haystack with
  | nil =>
    cases needle <;> simp [strstr]
  | cons c rest ih =>
    unfold strstr
    by_cases hp : needle.isPrefixOf (c :: rest) = true
    · simp only [hp, if_true, Option.isSome_some, true_iff]
      exact (List.isPrefixOf_iff_prefix.mp hp).isInfix
    · simp only [hp, Bool.false_eq_true, if_false, Option.isSome_map', ih]
      rw [List.infix_cons_iff]
      constructor
      · exact Or.inr
      · rintro (h | h)
        · exact absurd (List.isPrefixOf_iff_prefix.mpr h) hp
        · exact h

theorem detect_binary_content_snd (E : Engine) (d : charlock_detector_t) (s : CStr) :
    (detect_binary_content E d s).2 = { d with calls := d.calls ++ [.magic_buffer s] } := by
  unfold detect_binary_content
  cases E.magic_buffer s <;> simp only []
  split <;> rfl

theorem detect_binary_content_eq (E : Engine) (d : charlock_detector_t) (s : CStr)
    (r : Except RbError Int) (h : (detect_binary_content E d s).1 = r) :
    detect_binary_content E d s = (r, { d with calls := d.calls ++ [.magic_buffer s] }) :=
  Prod.ext h (detect_binary_content_snd E d s)

theorem detect_of_binary (E : Engine) (self : charlock_detector_t) (argv : List VALUE)
    (str : CStr) (hint : VALUE)
    (hargs : rb_scan_args_11 argv = .ok (.leaf (.string str), hint))
    (h : (detect_binary_content E self str).1 = .ok 1) :
    rb_encdec_detect E argv self =
      (.ok rb_encdec_binarymatch, { self with calls := self.calls ++ [.magic_buffer str] }) := by
  have e := detect_binary_content_eq E self str _ h
  simp [rb_encdec_detect, hargs, Check_Type_T_STRING, e]

theorem scan_args_cons (a : VALUE) (hint : Option VALUE) :
    rb_scan_args_11 (a :: hint.toList) = .ok (a, hint.getD (.leaf .Qnil)) := by
  cases hint <;> rfl

theorem push_matches_eq (acc : List VALUE) (csm : List UCharsetMatch) :
    push_matches acc csm = acc ++ csm.map textMatch := by
  induction csm generalizing acc with
  | nil => simp [push_matches]
  | cons m csm ih => simp [push_matches, ih, textMatch]

theorem binarymatch_not_nil : NIL_P rb_encdec_binarymatch = false := by decide

theorem detect_text (E : Engine) (self : charlock_detector_t) (argv : List VALUE)
    (str : CStr) (hint : VALUE)
    (hargs : rb_scan_args_11 argv = .ok (.leaf (.string str), hint))
    (hhint : hintOk hint) (h : (detect_binary_content E self str).1 = .ok 0) :
    (rb_encdec_detect E argv self).1 =
        .ok (rb_encdec_buildmatch (E.ucsdet_detect (csdFor self.csd str hint))) ∧
    (rb_encdec_detect E argv self).2.csd = csdFor self.csd str hint := by
  have e := detect_binary_content_eq E self str _ h
  rcases hhint with rfl | ⟨hb, rfl⟩ <;>
    simp [rb_encdec_detect, hargs, Check_Type_T_STRING, e, NIL_P, ucsdet_setText,
      ucsdet_setDeclaredEncoding, csdFor]

theorem detect_all_ok (E : Engine) (self : charlock_detector_t) (argv : List VALUE)
    (str : CStr) (hint : VALUE) (r : Int)
    (hargs : rb_scan_args_11 argv = .ok (.leaf (.string str), hint))
    (hhint : hintOk hint) (h : (detect_binary_content E self str).1 = .ok r) :
    (rb_encdec_detect_all E argv self).1 =
        .ok ((if r ≠ 0 then [rb_encdec_binarymatch] else []) ++
          (E.ucsdet_detectAll (csdFor self.csd str hint)).map textMatch) ∧
    (rb_encdec_detect_all E argv self).2.csd = csdFor self.csd str hint := by
  have e := detect_binary_content_eq E self str _ h
  by_cases hr : r = 0
  · subst hr
    rcases hhint with rfl | ⟨hb, rfl⟩ <;>
      simp [rb_encdec_detect_all, hargs, Check_Type_T_STRING, e, NIL_P, ucsdet_setText,
        ucsdet_setDeclaredEncoding, csdFor, push_matches_eq]
  · have hnil := binarymatch_not_nil
    have hq : NIL_P (.leaf .Qnil) = true := by decide
    have hs : ∀ b, NIL_P (.leaf (.string b)) = false := fun b => by simp [NIL_P]
    rcases hhint with rfl | ⟨hb, rfl⟩ <;>
      simp [rb_encdec_detect_all, hargs, Check_Type_T_STRING, e, ucsdet_setText,
        ucsdet_setDeclaredEncoding, csdFor, push_matches_eq, hr, hnil, hq, hs]

theorem check_type_none (x : VALUE) (hx : ∀ b, x ≠ .leaf (.string b)) :
    Check_Type_T_STRING x = none := by
  unfold Check_Type_T_STRING
  split
  · exact absurd rfl (hx _)
  · rfl

theorem fetch_buildmatch (m : UCharsetMatch) :
    (textMatch m).fetch "type" = some (.symbol "text") ∧
    (textMatch m).fetch "encoding" = some (.string m.name) ∧
    (textMatch m).fetch "confidence" = some (.fixnum m.confidence) ∧
    (textMatch m).fetch "language" =
      (m.language.filter (fun l => decide (l ≠ []))).map Leaf.string := by
  obtain ⟨name, lang, conf⟩ := m
  rcases lang with _ | _ | ⟨c, cs⟩ <;>
    simp [textMatch, rb_encdec_buildmatch, rb_hash_aset, rb_hash_aref, VALUE.fetch,
      List.find?, Option.filter]

/-- C1: when the signature engine returns a non-null label, `detect_binary_content`
returns 1 exactly when the label contains "library", "bundle", "archive" or
"data", or contains "executable" without containing "text"; for every other
label it returns 0. -/
theorem detect_binary_content_label (E : Engine) (detector : charlock_detector_t)
    (rb_str label : CStr) (h : E.magic_buffer rb_str = some label) :
    ((detect_binary_content E detector rb_str).1 = .ok 1 ↔
      ("library".toList <:+: label ∨ "bundle".toList <:+: label ∨
        "archive".toList <:+: label ∨ "data".toList <:+: label ∨
        ("executable".toList <:+: label ∧ ¬ "text".toList <:+: label))) ∧
    ((detect_binary_content E detector rb_str).1 ≠ .ok 1 →
      (detect_binary_content E detector rb_str).1 = .ok 0) := by
  have hs := fun n => strstr_isSome_iff label n
  unfold detect_binary_content
  simp only [h]
  split
  · rename_i hc
    simp only [Bool.or_eq_true, Bool.and_eq_true, Bool.not_eq_true', hs,
      ← Bool.not_eq_true] at hc
    refine ⟨⟨fun _ => ?_, fun _ => rfl⟩, fun hne => absurd rfl hne⟩
    tauto
  · rename_i hc
    simp only [Bool.or_eq_true, Bool.and_eq_true, Bool.not_eq_true', hs,
      ← Bool.not_eq_true] at hc
    refine ⟨⟨fun h1 => ?_, fun hP => ?_⟩, fun _ => rfl⟩
    · simp at h1
    · exact absurd (by tauto) hc

/-- C1 at a shell script: the label has "executable" together with "text", so
the buffer is not binary. -/
theorem detect_binary_content_label_witness :
    sampleEngine.magic_buffer "#!/bin/sh\n".toList =
        some "POSIX shell script text executable".toList ∧
    (detect_binary_content sampleEngine rb_encdec__alloc "#!/bin/sh\n".toList).1 = .ok 0 ∧
    ¬ ("library".toList <:+: "POSIX shell script text executable".toList ∨
        "bundle".toList <:+: "POSIX shell script text executable".toList ∨
        "archive".toList <:+: "POSIX shell script text executable".toList ∨
        "data".toList <:+: "POSIX shell script text executable".toList ∨
        ("executable".toList <:+: "POSIX shell script text executable".toList ∧
          ¬ "text".toList <:+: "POSIX shell script text executable".toList)) :=
  ⟨rfl, by rfl,
    fun hP =>
      absurd
        ((detect_binary_content_label sampleEngine rb_encdec__alloc "#!/bin/sh\n".toList
          "POSIX shell script text executable".toList rfl).1.mpr hP)
        (by
          have e : (detect_binary_content sampleEngine rb_encdec__alloc
              "#!/bin/sh\n".toList).1 = .ok 0 := by rfl
          rw [e]
          intro h
          have h' := Except.ok.inj h
          revert h'
          decide)⟩

/-- C2: for a buffer the classifier judges binary and any hint (absent or
present, of any type), `detect` returns the binary match: type binary,
confidence 100, no encoding key and no language key; the ICU handle is left as
it was and the only external call made is `magic_buffer`. -/
theorem detect_binary_short_circuit (E : Engine) (self : charlock_detector_t) (str : CStr)
    (hint : Option VALUE) (h : (detect_binary_content E self str).1 = .ok 1) :
    (rb_encdec_detect E (.leaf (.string str) :: hint.toList) self).1 =
        .ok rb_encdec_binarymatch ∧
    rb_encdec_binarymatch =
        .hash [(.symbol "type", .symbol "binary"), (.symbol "confidence", .fixnum 100)] ∧
    rb_encdec_binarymatch.fetch "encoding" = none ∧
    rb_encdec_binarymatch.fetch "language" = none ∧
    (rb_encdec_detect E (.leaf (.string str) :: hint.toList) self).2.csd = self.csd ∧
    (rb_encdec_detect E (.leaf (.string str) :: hint.toList) self).2.calls =
        self.calls ++ [.magic_buffer str] := by
  rw [detect_of_binary E self _ str _ (scan_args_cons _ hint) h]
  refine ⟨rfl, ?_, ?_, ?_, rfl, rfl⟩ <;> decide

/-- C2 on an ELF header, with a hint that is not even a String. -/
theorem detect_binary_short_circuit_witness :
    (detect_binary_content sampleEngine rb_encdec__alloc "\x7fELF\x02\x01\x01".toList).1 =
      .ok 1 ∧
    (rb_encdec_detect sampleEngine
        [.leaf (.string "\x7fELF\x02\x01\x01".toList), .leaf (.fixnum 7)]
        rb_encdec__alloc).1 = .ok rb_encdec_binarymatch ∧
    (rb_encdec_detect sampleEngine
        [.leaf (.string "\x7fELF\x02\x01\x01".toList), .leaf (.fixnum 7)]
        rb_encdec__alloc).2.calls = [.magic_buffer "\x7fELF\x02\x01\x01".toList] :=
  ⟨by rfl,
    (detect_binary_short_circuit sampleEngine rb_encdec__alloc
      "\x7fELF\x02\x01\x01".toList (some (.leaf (.fixnum 7))) (by rfl)).1,
    (detect_binary_short_circuit sampleEngine rb_encdec__alloc
      "\x7fELF\x02\x01\x01".toList (some (.leaf (.fixnum 7))) (by rfl)).2.2.2.2.2⟩

/-- C3 as stated fails: on a buffer judged binary, `detect_all` still asks the
charset detector and returns its candidates after the binary match. -/
theorem detect_all_binary_not_singleton :
    (detect_binary_content sampleEngine rb_encdec__alloc "PK\x03\x04\x14".toList).1 = .ok 1 ∧
    (rb_encdec_detect_all sampleEngine [.leaf (.string "PK\x03\x04\x14".toList)]
        rb_encdec__alloc).1 =
      .ok [rb_encdec_binarymatch, textMatch cand_utf8, textMatch cand_latin1] ∧
    ¬ ∃ m, (rb_encdec_detect_all sampleEngine [.leaf (.string "PK\x03\x04\x14".toList)]
        rb_encdec__alloc).1 = .ok [m] := by
  have h : (rb_encdec_detect_all sampleEngine [.leaf (.string "PK\x03\x04\x14".toList)]
        rb_encdec__alloc).1 =
      .ok [rb_encdec_binarymatch, textMatch cand_utf8, textMatch cand_latin1] := by rfl
  refine ⟨by rfl, h, ?_⟩
  rintro ⟨m, hm⟩
  rw [h] at hm
  simp at hm

/-- C3 (amended): on a buffer judged binary, with a hint that is absent or a
String, `detect_all` returns the binary match that `detect` returns, followed by
the text matches of all candidates the charset detector reports, in order; it is
a one-element list exactly when the charset detector reports no candidate. -/
theorem detect_all_binary_first (E : Engine) (self : charlock_detector_t)
    (argv : List VALUE) (str : CStr) (hint : VALUE)
    (hargs : rb_scan_args_11 argv = .ok (.leaf (.string str), hint))
    (hhint : hintOk hint) (h : (detect_binary_content E self str).1 = .ok 1) :
    (rb_encdec_detect E argv self).1 = .ok rb_encdec_binarymatch ∧
    (rb_encdec_detect_all E argv self).1 =
      .ok (rb_encdec_binarymatch ::
        (E.ucsdet_detectAll (csdFor self.csd str hint)).map textMatch) ∧
    ((rb_encdec_detect_all E argv self).1 = .ok [rb_encdec_binarymatch] ↔
      E.ucsdet_detectAll (csdFor self.csd str hint) = []) := by
  have hd := detect_of_binary E self argv str hint hargs h
  have ha := (detect_all_ok E self argv str hint 1 hargs hhint h).1
  simp only [ne_eq, one_ne_zero, not_false_eq_true, if_true, List.singleton_append] at ha
  refine ⟨by rw [hd], ha, ?_⟩
  rw [ha]
  simp

/-- C3 (amended) at an archive label with no hint. -/
theorem detect_all_binary_first_witness :
    rb_scan_args_11 [.leaf (.string "PK\x03\x04\x14".toList)] =
      .ok (.leaf (.string "PK\x03\x04\x14".toList), .leaf .Qnil) ∧
    hintOk (.leaf .Qnil) ∧
    (detect_binary_content sampleEngine rb_encdec__alloc "PK\x03\x04\x14".toList).1 = .ok 1 ∧
    (rb_encdec_detect_all sampleEngine [.leaf (.string "PK\x03\x04\x14".toList)]
        rb_encdec__alloc).1 =
      .ok (rb_encdec_binarymatch ::
        (sampleEngine.ucsdet_detectAll
          (csdFor rb_encdec__alloc.csd "PK\x03\x04\x14".toList (.leaf .Qnil))).map textMatch) :=
  ⟨rfl, Or.inl rfl, by rfl,
    (detect_all_binary_first sampleEngine rb_encdec__alloc
      [.leaf (.string "PK\x03\x04\x14".toList)] "PK\x03\x04\x14".toList
      (.leaf .Qnil) rfl (Or.inl rfl) (by rfl)).2.1⟩

/-- C6: a match built from a candidate is a Hash with type text, the
candidate's name under encoding and its confidence under confidence; it has a
language key exactly when the candidate's language is non-null and non-empty,
holding that language.  The binary match has type binary and no encoding key. -/
theorem buildmatch_shape (m : UCharsetMatch) :
    (∃ h, rb_encdec_buildmatch (some m) = .hash h) ∧
    (rb_encdec_buildmatch (some m)).fetch "type" = some (.symbol "text") ∧
    (rb_encdec_buildmatch (some m)).fetch "encoding" = some (.string m.name) ∧
    (rb_encdec_buildmatch (some m)).fetch "confidence" = some (.fixnum m.confidence) ∧
    (((rb_encdec_buildmatch (some m)).fetch "language").isSome = true ↔
      ∃ l, m.language = some l ∧ l ≠ []) ∧
    (rb_encdec_buildmatch (some m)).fetch "language" =
      (m.language.filter (fun l => decide (l ≠ []))).map Leaf.string ∧
    rb_encdec_binarymatch.fetch "type" = some (.symbol "binary") ∧
    rb_encdec_binarymatch.fetch "encoding" = none := by
  obtain ⟨ht, he, hc, hl⟩ := fetch_buildmatch m
  refine ⟨?_, ht, he, hc, ?_, hl, by decide, by decide⟩
  · unfold rb_encdec_buildmatch
    simp only []
    split <;> exact ⟨_, rfl⟩
  · have hl' : (rb_encdec_buildmatch (some m)).fetch "language" = _ := hl
    rw [hl']
    rcases m.language with _ | _ | ⟨c, cs⟩ <;> simp [Option.filter]

/-- C7: on a buffer judged not binary, with a hint that is absent or a String,
`detect_all` returns the charset detector's whole candidate list: as many
elements as candidates, the i-th being the text match of the i-th candidate,
and every element has type text (none is binary). -/
theorem detect_all_text_all_candidates (E : Engine) (self : charlock_detector_t)
    (argv : List VALUE) (str : CStr) (hint : VALUE)
    (hargs : rb_scan_args_11 argv = .ok (.leaf (.string str), hint))
    (hhint : hintOk hint) (h : (detect_binary_content E self str).1 = .ok 0) :
    ∃ out : List VALUE,
      (rb_encdec_detect_all E argv self).1 = .ok out ∧
      (rb_encdec_detect_all E argv self).2.csd = csdFor self.csd str hint ∧
      out.length = (E.ucsdet_detectAll (csdFor self.csd str hint)).length ∧
      (∀ i : Nat, out[i]? =
        ((E.ucsdet_detectAll (csdFor self.csd str hint))[i]?).map
          (fun m => rb_encdec_buildmatch (some m))) ∧
      (∀ v ∈ out, v.fetch "type" = some (.symbol "text") ∧ v ≠ rb_encdec_binarymatch) := by
  obtain ⟨ha, hc⟩ := detect_all_ok E self argv str hint 0 hargs hhint h
  simp only [ne_eq, not_true_eq_false, if_false, List.nil_append] at ha
  refine ⟨_, ha, hc, by simp, fun i => ?_, fun v hv => ?_⟩
  · rw [List.getElem?_map]
    rfl
  · obtain ⟨m, -, rfl⟩ := List.mem_map.mp hv
    have ht := (fetch_buildmatch m).1
    refine ⟨ht, fun hb => ?_⟩
    rw [hb] at ht
    revert ht
    decide

/-- C7 on plain text with a hint: three candidates, three matches. -/
theorem detect_all_text_all_candidates_witness :
    rb_scan_args_11 [.leaf (.string "hello".toList), .leaf (.string "Big5".toList)] =
      .ok (.leaf (.string "hello".toList), .leaf (.string "Big5".toList)) ∧
    hintOk (.leaf (.string "Big5".toList)) ∧
    (detect_binary_content sampleEngine rb_encdec__alloc "hello".toList).1 = .ok 0 ∧
    ∃ out : List VALUE,
      (rb_encdec_detect_all sampleEngine
        [.leaf (.string "hello".toList), .leaf (.string "Big5".toList)]
        rb_encdec__alloc).1 = .ok out ∧
      out.length = 3 :=
  ⟨rfl, Or.inr ⟨_, rfl⟩, by rfl,
    (detect_all_text_all_candidates sampleEngine rb_encdec__alloc
      [.leaf (.string "hello".toList), .leaf (.string "Big5".toList)] "hello".toList
      (.leaf (.string "Big5".toList)) rfl (Or.inr ⟨_, rfl⟩) (by rfl)).imp
      (fun _ h => ⟨h.1, h.2.2.1⟩)⟩

/-- C8: on a buffer judged not binary, with a hint that is absent or a String,
`detect` returns the text match built from the charset detector's best
candidate when there is one, and `Qnil` when there is none. -/
theorem detect_text_best_or_nil (E : Engine) (self : charlock_detector_t)
    (argv : List VALUE) (str : CStr) (hint : VALUE)
    (hargs : rb_scan_args_11 argv = .ok (.leaf (.string str), hint))
    (hhint : hintOk hint) (h : (detect_binary_content E self str).1 = .ok 0) :
    (rb_encdec_detect E argv self).2.csd = csdFor self.csd str hint ∧
    (∀ m, E.ucsdet_detect (csdFor self.csd str hint) = some m →
      (rb_encdec_detect E argv self).1 = .ok (rb_encdec_buildmatch (some m)) ∧
      (rb_encdec_buildmatch (some m)).fetch "type" = some (.symbol "text") ∧
      (rb_encdec_buildmatch (some m)).fetch "encoding" = some (.string m.name)) ∧
    (E.ucsdet_detect (csdFor self.csd str hint) = none →
      (rb_encdec_detect E argv self).1 = .ok (.leaf .Qnil)) := by
  obtain ⟨hr, hc⟩ := detect_text E self argv str hint hargs hhint h
  refine ⟨hc, fun m hm => ⟨?_, (fetch_buildmatch m).1, (fetch_buildmatch m).2.1⟩, fun hn => ?_⟩
  · rw [hr, hm]
  · rw [hr, hn]
    rfl

/-- C8 on an empty buffer: no candidate, so no match. -/
theorem detect_text_best_or_nil_witness :
    rb_scan_args_11 [.leaf (.string [])] = .ok (.leaf (.string []), .leaf .Qnil) ∧
    hintOk (.leaf .Qnil) ∧
    (detect_binary_content sampleEngine rb_encdec__alloc []).1 = .ok 0 ∧
    (rb_encdec_detect sampleEngine [.leaf (.string [])] rb_encdec__alloc).1 =
      .ok (.leaf .Qnil) :=
  ⟨rfl, Or.inl rfl, by rfl,
    (detect_text_best_or_nil sampleEngine rb_encdec__alloc [.leaf (.string [])] []
      (.leaf .Qnil) rfl (Or.inl rfl) (by rfl)).2.2 (by rfl)⟩

/-- C9: the strip_tags setter returns its argument; a getter call after it
returns true when the argument is true and false when it is false (and false
for any other value); the setter leaves the handle's text and declared encoding
as they were, and the getter leaves the whole detector as it was. -/
theorem strip_tags_round_trip (self : charlock_detector_t) (v : VALUE) :
    (rb_set_strip_tags self v).1 = v ∧
    (rb_get_strip_tags (rb_set_strip_tags self (.leaf .Qtrue)).2).1 = .leaf .Qtrue ∧
    (rb_get_strip_tags (rb_set_strip_tags self (.leaf .Qfalse)).2).1 = .leaf .Qfalse ∧
    (rb_get_strip_tags (rb_set_strip_tags self v).2).1 =
      (if v = .leaf .Qtrue then .leaf .Qtrue else .leaf .Qfalse) ∧
    (rb_set_strip_tags self v).2.csd.text = self.csd.text ∧
    (rb_set_strip_tags self v).2.csd.textLen = self.csd.textLen ∧
    (rb_set_strip_tags self v).2.csd.declaredEncoding = self.csd.declaredEncoding ∧
    (rb_set_strip_tags self v).2.calls = self.calls ∧
    (rb_get_strip_tags self).2 = self := by
  refine ⟨rfl, rfl, rfl, ?_, rfl, rfl, rfl, rfl, rfl⟩
  by_cases hv : v = .leaf .Qtrue <;>
    simp [rb_get_strip_tags, rb_set_strip_tags, ucsdet_isInputFilterEnabled,
      ucsdet_enableInputFilter, hv]

/-- C10: a first argument that is not a String makes `detect` and `detect_all`
raise `TypeError` with the detector exactly as before: no call to the signature
engine or the charset detector is recorded and the handle is untouched. -/
theorem non_string_rejected (E : Engine) (self : charlock_detector_t) (x : VALUE)
    (hint : Option VALUE) (hx : ∀ b, x ≠ .leaf (.string b)) :
    rb_encdec_detect E (x :: hint.toList) self = (.error .TypeError, self) ∧
    rb_encdec_detect_all E (x :: hint.toList) self = (.error .TypeError, self) := by
  have hc := check_type_none x hx
  constructor
  · simp [rb_encdec_detect, scan_args_cons, hc]
  · simp [rb_encdec_detect_all, scan_args_cons, hc]

/-- C10 with an Integer as the buffer and a String hint. -/
theorem non_string_rejected_witness :
    (∀ b, VALUE.leaf (.fixnum 42) ≠ .leaf (.string b)) ∧
    rb_encdec_detect sampleEngine [.leaf (.fixnum 42), .leaf (.string "UTF-8".toList)]
        rb_encdec__alloc = (.error .TypeError, rb_encdec__alloc) ∧
    rb_encdec_detect_all sampleEngine [.leaf (.fixnum 42), .leaf (.string "UTF-8".toList)]
        rb_encdec__alloc = (.error .TypeError, rb_encdec__alloc) :=
  ⟨(fun _ h => by cases h),
    non_string_rejected sampleEngine rb_encdec__alloc (.leaf (.fixnum 42))
      (some (.leaf (.string "UTF-8".toList))) (fun _ h => by cases h)⟩

end CharlockHolmes
